import Mathlib

/-!
Verification model of the pigpiod-network-sink protocol engine.

The model embeds, from the repository sources:
* the 16-byte frame codec used by `PigpiodClient::sendCommand` (client)
  and `handle_client` (server, gpio_server.c): four little-endian
  32-bit words;
* the server's register driver (`gpio_set_mode`, `gpio_set`,
  `gpio_clear`, `gpio_write`, `gpio_trig`) as functions on a register
  state, and the dispatch loop body of `handle_client` as a sequential
  event trace;
* the client operations of `PigpiodClient` (`connect`, `disconnect`,
  `setMode`, `write`, `trig`, `sendCommand`) as explicit state passing
  over a small client state, with the socket abstracted as an oracle
  for write/read results.
-/

/-! ### Frame codec -/

/-- Little-endian byte encoding of a 32-bit word, as produced by the
client's `memcpy (cmdBuf + k, &x, 4)` on a little-endian machine. -/
def encodeWord (x : Nat) : List Nat :=
  [x % 256, x / 256 % 256, x / 65536 % 256, x / 16777216 % 256]

/-- The 16-byte command frame `(cmd, p1, p2, p3)` built by
`PigpiodClient::sendCommand`. -/
def encodeFrame (cmd p1 p2 p3 : Nat) : List Nat :=
  encodeWord cmd ++ encodeWord p1 ++ encodeWord p2 ++ encodeWord p3

/-- Read the little-endian 32-bit word at byte offset `off`, as the
server's `memcpy (&x, cmd_buf + off, 4)` does. -/
def decodeWordAt (bs : List Nat) (off : Nat) : Nat :=
  bs.getD off 0 + 256 * bs.getD (off + 1) 0 + 65536 * bs.getD (off + 2) 0
    + 16777216 * bs.getD (off + 3) 0

/-- Decode a 16-byte frame into `(cmd, p1, p2, p3)`; any buffer that is
not exactly 16 bytes is rejected (the server breaks the loop when
`recv` returns anything other than 16 bytes). -/
def decodeFrame (bs : List Nat) : Option (Nat × Nat × Nat × Nat) :=
  if bs.length = 16 then
    some (decodeWordAt bs 0, decodeWordAt bs 4, decodeWordAt bs 8, decodeWordAt bs 12)
  else none

/-- Server response buffer: status as a little-endian two's-complement
32-bit word followed by 12 zero bytes (`res_buf` in `handle_client`). -/
def encodeStatus (s : Int) : List Nat :=
  encodeWord (s % 4294967296).toNat ++ List.replicate 12 0

/-! ### Register driver (server, gpio_server.c) -/

/-- GPIO register state: the function-select words `GPFSEL0+r` and the
per-pin output level produced by writes to the set/clear registers. -/
structure Gpio where
  fsel : Nat → Nat
  level : Nat → Bool

/-- One function-select word after `gpio_set_mode`'s read-modify-write:
`value &= ~(7 << shift); if (mode == PI_OUTPUT) value |= (1 << shift);`
with `~` taken on a 32-bit word. -/
def setModeWord (value shift mode : Nat) : Nat :=
  let cleared := value &&& (4294967295 ^^^ (7 <<< shift))
  if mode = 1 then cleared ||| (1 <<< shift) else cleared

/-- `gpio_set_mode(gpio, mode)`: read-modify-write of word
`gpio / 10` at bit offset `(gpio % 10) * 3`; other words untouched. -/
def gpio_set_mode (gpio mode : Nat) (fsel : Nat → Nat) : Nat → Nat :=
  fun r => if r = gpio / 10 then setModeWord (fsel r) (gpio % 10 * 3) mode else fsel r

/-- `gpio_set(gpio)`: write-1 to the set register drives the pin high. -/
def gpio_set (gpio : Nat) (lv : Nat → Bool) : Nat → Bool :=
  fun q => if q = gpio then true else lv q

/-- `gpio_clear(gpio)`: write-1 to the clear register drives the pin low. -/
def gpio_clear (gpio : Nat) (lv : Nat → Bool) : Nat → Bool :=
  fun q => if q = gpio then false else lv q

/-! ### Command dispatcher as an event trace -/

/-- Observable steps of one `handle_client` loop iteration, in program
order: register-driver effects, the `delay_us` hold, and the final
16-byte response `send`. -/
inductive Ev where
  | setModeEv (gpio mode : Nat)
  | setEv (gpio : Nat)
  | clearEv (gpio : Nat)
  | delayEv (us : Nat)
  | sendResp (bytes : List Nat)
deriving DecidableEq, Repr

/-- `gpio_trig(gpio, pulse_us, level)` as its trace: set, hold, clear
for a high pulse; the mirrored sequence for a low pulse. -/
def gpio_trig (gpio pulse_us levelArg : Nat) : List Ev :=
  if levelArg ≠ 0 then
    [Ev.setEv gpio, Ev.delayEv pulse_us, Ev.clearEv gpio]
  else
    [Ev.clearEv gpio, Ev.delayEv pulse_us, Ev.setEv gpio]

/-- `gpio_write(gpio, level)` dispatches on `level != 0`. -/
def gpio_write (gpio levelArg : Nat) : Ev :=
  if levelArg ≠ 0 then Ev.setEv gpio else Ev.clearEv gpio

/-- The `switch (cmd)` of `handle_client`: hardware events of the
dispatched command plus the response status. `extLevel` is the u32 a
`recv` of the 4-byte TRIG extension would deliver; it is consulted only
when `p3 == 4`, otherwise `level` keeps its default 1. Commands 4
(WRITE), 37 (TRIG) and 26 (PIGPV) are recognized; everything else takes
the `default` branch with status `-1` and no hardware effect. -/
def serverDispatch (cmd p1 p2 p3 extLevel : Nat) : List Ev × Int :=
  if cmd = 4 then
    ([Ev.setModeEv p1 1, gpio_write p1 p2], 0)
  else if cmd = 37 then
    let levelArg := if p3 = 4 then extLevel else 1
    (Ev.setModeEv p1 1 :: gpio_trig p1 p2 levelArg, 0)
  else if cmd = 26 then
    ([], 79)
  else
    ([], -1)

/-- One full loop iteration after a 16-byte frame was received: dispatch,
then unconditionally send the 16-byte response; the `Bool` records that
the loop continues (no dispatch path breaks out of `while (1)`). -/
def serverStep (cmd p1 p2 p3 extLevel : Nat) : List Ev × Bool :=
  let d := serverDispatch cmd p1 p2 p3 extLevel
  (d.1 ++ [Ev.sendResp (encodeStatus d.2)], true)

/-- Apply one event to the register state. -/
def applyEv (g : Gpio) : Ev → Gpio
  | Ev.setModeEv p m => ⟨gpio_set_mode p m g.fsel, g.level⟩
  | Ev.setEv p => ⟨g.fsel, gpio_set p g.level⟩
  | Ev.clearEv p => ⟨g.fsel, gpio_clear p g.level⟩
  | Ev.delayEv _ => g
  | Ev.sendResp _ => g

/-- Run a trace left to right from a starting register state. -/
def applyTrace (g : Gpio) (evs : List Ev) : Gpio :=
  evs.foldl applyEv g

/-- `true` exactly on response events. -/
def isResp : Ev → Bool
  | Ev.sendResp _ => true
  | _ => false

/-! ### Protocol client (PigpiodClient) -/

/-- Error codes from PigpiodClient.h. -/
def PI_NOT_CONNECTED : Int := -1

/-- `PI_SOCKET_ERROR` from PigpiodClient.h. -/
def PI_SOCKET_ERROR : Int := -2

/-- The invalid-argument error code, -3 (named for the bad-pin case in
PigpiodClient.h). -/
def PI_BAD_PIN : Int := -3

/-- Client-visible state: whether a live socket is held and the
`lastError` string reported by `getLastError()`. -/
structure ClientState where
  connected : Bool
  lastError : String
deriving DecidableEq, Repr

/-- Socket oracle for one `sendCommand` exchange: the byte count
`socket->write` reports, the signed result of each successive
`socket->read`, and the status word sitting in the first four response
bytes once all 16 have been assembled. -/
structure Net where
  writeAccepts : Nat
  reads : Nat → Int
  respStatus : Int

/-- Outcome of the client's accumulate-read loop. -/
inductive RecvOutcome where
  | success
  | transportError
  | incomplete
deriving DecidableEq, Repr

/-- The body of `while (totalReceived < 16 && attempts < maxAttempts)`,
structured on the remaining attempt budget `fuel = maxAttempts -
attempts`. `attempts` also counts the reads performed so far; the
second component of the result is the total number of reads issued.
A positive read accumulates bytes, a negative read returns the
transport error at once, a zero read merely consumes an attempt. -/
def recvAux (reads : Nat → Int) : Nat → Nat → Nat → RecvOutcome × Nat
  | 0, total, attempts =>
    (if total < 16 then RecvOutcome.incomplete else RecvOutcome.success, attempts)
  | fuel + 1, total, attempts =>
    if total < 16 then
      let r := reads attempts
      if 0 < r then recvAux reads fuel (total + r.toNat) (attempts + 1)
      else if r < 0 then (RecvOutcome.transportError, attempts + 1)
      else recvAux reads fuel total (attempts + 1)
    else (RecvOutcome.success, attempts)

/-- The full read loop of `sendCommand` with its budget
`maxAttempts = 100`, starting from `totalReceived = 0, attempts = 0`. -/
def recvLoop (reads : Nat → Int) : RecvOutcome × Nat :=
  recvAux reads 100 0 0

/-- `PigpiodClient::sendCommand`: refuse when not connected, build and
send the 16-byte frame, run the read loop, and map its outcome to a
status and `lastError`. Returns the status, the new client state, and
the bytes handed to the socket (empty when validation stops the call
before any socket use). -/
def sendCommandM (net : Net) (st : ClientState) (cmd p1 p2 p3 : Nat) :
    Int × ClientState × List Nat :=
  if st.connected = false then
    (PI_NOT_CONNECTED, ⟨st.connected, "Not connected to pigpiod"⟩, [])
  else
    let frame := encodeFrame cmd p1 p2 p3
    if net.writeAccepts ≠ 16 then
      (PI_SOCKET_ERROR, ⟨st.connected, "Failed to send command"⟩, frame)
    else
      match (recvLoop net.reads).1 with
      | RecvOutcome.transportError =>
          (PI_SOCKET_ERROR, ⟨st.connected, "Socket read error"⟩, frame)
      | RecvOutcome.incomplete =>
          (PI_SOCKET_ERROR, ⟨st.connected, "Incomplete response from pigpiod"⟩, frame)
      | RecvOutcome.success =>
          (net.respStatus, st, frame)

/-- Reduction of a C `int` argument to the `uint32_t` parameter slots. -/
def toU32 (i : Int) : Nat := (i % 4294967296).toNat

/-- `PigpiodClient::setMode(gpio, mode)`: pin range check, then
`sendCommand(PI_CMD_MODES, gpio, mode)` with command code 5. -/
def clientSetMode (net : Net) (st : ClientState) (gpio mode : Int) :
    Int × ClientState × List Nat :=
  if gpio < 0 ∨ 53 < gpio then
    (PI_BAD_PIN, ⟨st.connected, "Invalid GPIO number: " ++ toString gpio⟩, [])
  else
    sendCommandM net st 5 (toU32 gpio) (toU32 mode) 0

/-- `PigpiodClient::write(gpio, level)`: pin range check, then
`sendCommand(PI_CMD_WRITE, gpio, level)` with command code 4. -/
def clientWrite (net : Net) (st : ClientState) (gpio levelArg : Int) :
    Int × ClientState × List Nat :=
  if gpio < 0 ∨ 53 < gpio then
    (PI_BAD_PIN, ⟨st.connected, "Invalid GPIO number: " ++ toString gpio⟩, [])
  else
    sendCommandM net st 4 (toU32 gpio) (toU32 levelArg) 0

/-- `PigpiodClient::trig(gpio, pulseLength)`: pin range check, pulse
length check (1–100), then `sendCommand(PI_CMD_TRIG, gpio,
pulseLength)` with command code 37 and the defaulted `p3 = 0`. -/
def clientTrig (net : Net) (st : ClientState) (gpio pulseLength : Int) :
    Int × ClientState × List Nat :=
  if gpio < 0 ∨ 53 < gpio then
    (PI_BAD_PIN, ⟨st.connected, "Invalid GPIO number: " ++ toString gpio⟩, [])
  else if pulseLength < 1 ∨ 100 < pulseLength then
    (PI_BAD_PIN,
      ⟨st.connected,
        "Invalid pulse length: " ++ toString pulseLength ++ " (must be 1-100 microseconds)"⟩,
      [])
  else
    sendCommandM net st 37 (toU32 gpio) (toU32 pulseLength) 0

/-- `PigpiodClient::getVersion()`: `sendCommand(PI_CMD_PIGPV)`. -/
def clientGetVersion (net : Net) (st : ClientState) : Int × ClientState × List Nat :=
  sendCommandM net st 26 0 0 0

/-- `PigpiodClient::disconnect()`: closes the socket if open and —
unconditionally — resets `lastError` to the empty string. -/
def clientDisconnect (_st : ClientState) : ClientState :=
  ⟨false, ""⟩

/-- `PigpiodClient::connect(hostname, port)`: disconnect any existing
socket, then attempt the TCP connect (`sockOk` abstracts its success).
On socket success, clear `lastError` and probe with `getVersion()`; a
non-positive version sets the handshake message and then calls
`disconnect()` before returning `false`. On socket failure, set the
connect message and return `false`. -/
def clientConnect (net : Net) (sockOk : Bool) (hostname : String) (port : Int) :
    Bool × ClientState :=
  let st0 := clientDisconnect ⟨false, ""⟩
  if sockOk then
    let st1 : ClientState := ⟨true, ""⟩
    let v := (clientGetVersion net st1).1
    let st2 := (clientGetVersion net st1).2.1
    if 0 < v then (true, st2)
    else
      let st3 : ClientState :=
        ⟨st2.connected, "Failed to get pigpiod version. Is pigpiod running?"⟩
      (false, clientDisconnect st3)
  else
    (false, ⟨st0.connected, "Failed to connect to " ++ hostname ++ ":" ++ toString port⟩)

/-! ### Helper lemmas -/

theorem decodeFrame_encodeFrame (cmd p1 p2 p3 : Nat)
    (h1 : cmd < 4294967296) (h2 : p1 < 4294967296)
    (h3 : p2 < 4294967296) (h4 : p3 < 4294967296) :
    decodeFrame (encodeFrame cmd p1 p2 p3) = some (cmd, p1, p2, p3) := by
  simp only [decodeFrame, encodeFrame, encodeWord, List.cons_append, List.nil_append,
    List.length_cons, List.length_nil, decodeWordAt, List.getD]
  norm_num
  refine ⟨?_, ?_, ?_, ?_⟩ <;> omega

theorem serverDispatch_no_resp (cmd p1 p2 p3 ext : Nat) :
    (serverDispatch cmd p1 p2 p3 ext).1.filter isResp = [] := by
  unfold serverDispatch gpio_write gpio_trig
  split_ifs <;> simp [isResp] <;> split_ifs <;> simp [isResp]

/-! Sanity checks on concrete frames. -/

example : decodeFrame (encodeFrame 4 17 1 0) = some (4, 17, 1, 0) := by decide

example : serverDispatch 26 0 0 0 0 = ([], 79) := by decide

example : serverDispatch 999 0 0 0 0 = ([], -1) := by decide

example :
    serverStep 37 17 50 0 0 =
      ([Ev.setModeEv 17 1, Ev.setEv 17, Ev.delayEv 50, Ev.clearEv 17,
        Ev.sendResp [0, 0, 0, 0, 0, 0, 0, 0, 0, 0, 0, 0, 0, 0, 0, 0]], true) := by
  decide

/-! ### Claim theorems -/

/-- C5: Frame-codec round-trip — for all 32-bit values `cmd, p1, p2, p3`
(including 0 and the maximum), decoding the 16-byte frame produced by
encoding `(cmd, p1, p2, p3)` yields exactly `(cmd, p1, p2, p3)`. -/
theorem frame_roundtrip (cmd p1 p2 p3 : Nat)
    (h1 : cmd < 4294967296) (h2 : p1 < 4294967296)
    (h3 : p2 < 4294967296) (h4 : p3 < 4294967296) :
    decodeFrame (encodeFrame cmd p1 p2 p3) = some (cmd, p1, p2, p3) :=
  decodeFrame_encodeFrame cmd p1 p2 p3 h1 h2 h3 h4

/-- Witness for C5 at zero and maximal words. -/
theorem frame_roundtrip_witness :
    decodeFrame (encodeFrame 4294967295 0 4294967295 37) =
      some (4294967295, 0, 4294967295, 37) :=
  frame_roundtrip 4294967295 0 4294967295 37 (by decide) (by decide) (by decide) (by decide)

/-- C3 counterexample: a frame with command code 5 (MODES) and the
valid pin 17 takes the server's `default` branch — no set-mode
operation is dispatched and the status is `-1`, a negative value. -/
theorem modes_unrecognized_cex :
    serverDispatch 5 17 1 0 1 = ([], -1) ∧ (-1 : Int) < 0 := by
  constructor
  · decide
  · decide

/-- C3 (amended): command code 5 (MODES) is sent by the client's
`setMode` but the server never recognizes it: every frame with command
5 takes the unknown-command path, producing status `-1` and no hardware
event, and a connected client whose transport delivers that response
gets `-1` back from `setMode`. -/
theorem modes_cmd_not_recognized (p1 p2 p3 ext : Nat) (net : Net) (st : ClientState)
    (gpio mode : Int) (hg1 : 0 ≤ gpio) (hg2 : gpio ≤ 53)
    (hc : st.connected = true) (hw : net.writeAccepts = 16)
    (hr : (recvLoop net.reads).1 = RecvOutcome.success)
    (hs : net.respStatus = -1) :
    serverDispatch 5 p1 p2 p3 ext = ([], -1) ∧
    (clientSetMode net st gpio mode).1 = -1 := by
  constructor
  · simp [serverDispatch]
  · have hv : ¬(gpio < 0 ∨ 53 < gpio) := by omega
    simp only [clientSetMode, hv, if_false, sendCommandM, hc, hw]
    simp [hr, hs]

/-- Witness for C3's amended theorem at pin 17 with a transport that
returns the server's `-1` response in one read. -/
theorem modes_cmd_not_recognized_witness :
    serverDispatch 5 17 1 0 1 = ([], -1) ∧
    (clientSetMode ⟨16, fun _ => 16, -1⟩ ⟨true, ""⟩ 17 1).1 = -1 :=
  modes_cmd_not_recognized 17 1 0 1 ⟨16, fun _ => 16, -1⟩ ⟨true, ""⟩ 17 1
    (by decide) (by decide) rfl rfl rfl rfl

/-- C2 counterexample: the server performs no pin validation — a WRITE
frame carrying the out-of-range pin 54 is dispatched straight into the
register layer (`gpio_set_mode 54` then a set-register write for pin
54), so an out-of-range pin index does reach a register write. -/
theorem server_accepts_out_of_range_pin_cex :
    serverDispatch 4 54 1 0 0 = ([Ev.setModeEv 54 1, Ev.setEv 54], 0) ∧ 53 < 54 := by
  constructor
  · decide
  · decide

/-- C4: for every request frame the server accepts, the loop iteration
emits exactly one response event, it is the last step of the iteration,
its payload is 16 bytes, and the loop continues; an unrecognized
command yields status `-1` with no hardware event. -/
theorem server_emits_one_response (cmd p1 p2 p3 ext : Nat) :
    ((serverStep cmd p1 p2 p3 ext).1.filter isResp).length = 1 ∧
    (serverStep cmd p1 p2 p3 ext).1.getLast? =
      some (Ev.sendResp (encodeStatus (serverDispatch cmd p1 p2 p3 ext).2)) ∧
    (encodeStatus (serverDispatch cmd p1 p2 p3 ext).2).length = 16 ∧
    (serverStep cmd p1 p2 p3 ext).2 = true ∧
    (cmd ≠ 4 → cmd ≠ 37 → cmd ≠ 26 →
      serverDispatch cmd p1 p2 p3 ext = ([], -1)) := by
  refine ⟨?_, ?_, ?_, rfl, ?_⟩
  · simp [serverStep, List.filter_append, serverDispatch_no_resp, isResp]
  · simp [serverStep, List.getLast?_concat]
  · simp [encodeStatus, encodeWord]
  · intro h4 h37 h26
    simp [serverDispatch, h4, h37, h26]

/-- Witness for C4 at the unrecognized command code 999. -/
theorem server_emits_one_response_witness :
    ((serverStep 999 17 1 0 0).1.filter isResp).length = 1 ∧
    serverDispatch 999 17 1 0 0 = ([], -1) :=
  ⟨(server_emits_one_response 999 17 1 0 0).1,
   (server_emits_one_response 999 17 1 0 0).2.2.2.2 (by decide) (by decide) (by decide)⟩

theorem sendCommandM_sent (net : Net) (st : ClientState) (cmd p1 p2 p3 : Nat) :
    (sendCommandM net st cmd p1 p2 p3).2.2 = [] ∨
    (sendCommandM net st cmd p1 p2 p3).2.2 = encodeFrame cmd p1 p2 p3 := by
  unfold sendCommandM
  rcases h : (recvLoop net.reads).1 <;> split_ifs <;> simp [h]

/-- C2 (amended): pin-range validation lives in the client, not the
server — whenever a client operation actually hands bytes to the
socket, the frame is the encoding of the requested command with a pin
that passed the 0–53 check, so its `p1` word is at most 53. (The
dispatcher itself forwards any received `p1` unvalidated, see the
counterexample.) -/
theorem client_validates_pin_before_send (net : Net) (st : ClientState) (gpio a : Int) :
    ((clientSetMode net st gpio a).2.2 ≠ [] →
      (clientSetMode net st gpio a).2.2 = encodeFrame 5 (toU32 gpio) (toU32 a) 0 ∧
        toU32 gpio ≤ 53) ∧
    ((clientWrite net st gpio a).2.2 ≠ [] →
      (clientWrite net st gpio a).2.2 = encodeFrame 4 (toU32 gpio) (toU32 a) 0 ∧
        toU32 gpio ≤ 53) ∧
    ((clientTrig net st gpio a).2.2 ≠ [] →
      (clientTrig net st gpio a).2.2 = encodeFrame 37 (toU32 gpio) (toU32 a) 0 ∧
        toU32 gpio ≤ 53) := by
  refine ⟨?_, ?_, ?_⟩ <;> intro hne
  · by_cases hv : gpio < 0 ∨ 53 < gpio
    · simp [clientSetMode, hv] at hne
    · simp only [clientSetMode, hv, if_false] at hne ⊢
      rcases sendCommandM_sent net st 5 (toU32 gpio) (toU32 a) 0 with h | h
      · exact absurd h hne
      · exact ⟨h, by unfold toU32; omega⟩
  · by_cases hv : gpio < 0 ∨ 53 < gpio
    · simp [clientWrite, hv] at hne
    · simp only [clientWrite, hv, if_false] at hne ⊢
      rcases sendCommandM_sent net st 4 (toU32 gpio) (toU32 a) 0 with h | h
      · exact absurd h hne
      · exact ⟨h, by unfold toU32; omega⟩
  · by_cases hv : gpio < 0 ∨ 53 < gpio
    · simp [clientTrig, hv] at hne
    · by_cases hp : a < 1 ∨ 100 < a
      · simp [clientTrig, hv, hp] at hne
      · simp only [clientTrig, hv, hp, if_false] at hne ⊢
        rcases sendCommandM_sent net st 37 (toU32 gpio) (toU32 a) 0 with h | h
        · exact absurd h hne
        · exact ⟨h, by unfold toU32; omega⟩

/-- Witness for C2's amended theorem: a `setMode` call on pin 17 over a
live transport sends the MODES frame with `p1 = 17 ≤ 53`. -/
theorem client_validates_pin_before_send_witness :
    (clientSetMode ⟨16, fun _ => 16, 0⟩ ⟨true, ""⟩ 17 1).2.2 =
      encodeFrame 5 (toU32 17) (toU32 1) 0 ∧ toU32 17 ≤ 53 :=
  (client_validates_pin_before_send ⟨16, fun _ => 16, 0⟩ ⟨true, ""⟩ 17 1).1 (by decide)

/-- C6: a pin outside 0–53 makes `setMode`, `write` and `trig` fail
locally with the invalid-argument code `PI_BAD_PIN`, handing no bytes
to the socket and leaving the connection flag untouched; a `trig` pulse
length outside 1–100 microseconds (with a valid pin) does the same. -/
theorem client_invalid_args_fail_locally (net : Net) (st : ClientState)
    (gpio a pl : Int) :
    ((gpio < 0 ∨ 53 < gpio) →
      (clientSetMode net st gpio a).1 = PI_BAD_PIN ∧
      (clientSetMode net st gpio a).2.2 = [] ∧
      (clientSetMode net st gpio a).2.1.connected = st.connected ∧
      (clientWrite net st gpio a).1 = PI_BAD_PIN ∧
      (clientWrite net st gpio a).2.2 = [] ∧
      (clientWrite net st gpio a).2.1.connected = st.connected ∧
      (clientTrig net st gpio pl).1 = PI_BAD_PIN ∧
      (clientTrig net st gpio pl).2.2 = [] ∧
      (clientTrig net st gpio pl).2.1.connected = st.connected) ∧
    (0 ≤ gpio → gpio ≤ 53 → (pl < 1 ∨ 100 < pl) →
      (clientTrig net st gpio pl).1 = PI_BAD_PIN ∧
      (clientTrig net st gpio pl).2.2 = [] ∧
      (clientTrig net st gpio pl).2.1.connected = st.connected) := by
  constructor
  · intro hv
    simp [clientSetMode, clientWrite, clientTrig, hv]
  · intro hg1 hg2 hp
    have hv : ¬(gpio < 0 ∨ 53 < gpio) := by omega
    simp [clientTrig, hv, hp]

/-- Witness for C6 at pin 54 (out of range) and at pulse length 500
microseconds on the valid pin 17. -/
theorem client_invalid_args_fail_locally_witness :
    ((clientWrite ⟨16, fun _ => 16, 0⟩ ⟨true, ""⟩ 54 1).1 = PI_BAD_PIN ∧
      (clientWrite ⟨16, fun _ => 16, 0⟩ ⟨true, ""⟩ 54 1).2.2 = []) ∧
    ((clientTrig ⟨16, fun _ => 16, 0⟩ ⟨true, ""⟩ 17 500).1 = PI_BAD_PIN ∧
      (clientTrig ⟨16, fun _ => 16, 0⟩ ⟨true, ""⟩ 17 500).2.2 = []) := by
  have h1 := (client_invalid_args_fail_locally ⟨16, fun _ => 16, 0⟩ ⟨true, ""⟩ 54 1 500).1
    (by decide)
  have h2 := (client_invalid_args_fail_locally ⟨16, fun _ => 16, 0⟩ ⟨true, ""⟩ 17 1 500).2
    (by decide) (by decide) (by decide)
  exact ⟨⟨h1.2.2.2.1, h1.2.2.2.2.1⟩, ⟨h2.1, h2.2.1⟩⟩

/-- C10: a successful `trig` call always sends exactly the 16-byte TRIG
frame with `p3 = 0` and no trailing extension, and on any such frame
the server's default applies: the dispatched pulse is the high pulse
(set, hold, clear) regardless of what a level extension would have
said — no low pulse can be requested through the public interface. -/
theorem trig_default_level_high (net : Net) (st : ClientState) (gpio pl : Int)
    (hg1 : 0 ≤ gpio) (hg2 : gpio ≤ 53) (hp1 : 1 ≤ pl) (hp2 : pl ≤ 100)
    (hc : st.connected = true) :
    (clientTrig net st gpio pl).2.2 = encodeFrame 37 (toU32 gpio) (toU32 pl) 0 ∧
    (clientTrig net st gpio pl).2.2.length = 16 ∧
    (∀ ext : Nat, serverDispatch 37 (toU32 gpio) (toU32 pl) 0 ext =
      ([Ev.setModeEv (toU32 gpio) 1, Ev.setEv (toU32 gpio), Ev.delayEv (toU32 pl),
        Ev.clearEv (toU32 gpio)], 0)) := by
  have hv : ¬(gpio < 0 ∨ 53 < gpio) := by omega
  have hp : ¬(pl < 1 ∨ 100 < pl) := by omega
  refine ⟨?_, ?_, ?_⟩
  · simp only [clientTrig, hv, hp, if_false]
    unfold sendCommandM
    rcases h : (recvLoop net.reads).1 <;> split_ifs <;> simp_all
  · simp only [clientTrig, hv, hp, if_false]
    unfold sendCommandM
    rcases h : (recvLoop net.reads).1 <;> split_ifs <;>
      simp_all [encodeFrame, encodeWord]
  · intro ext
    simp [serverDispatch, gpio_trig]

/-- Witness for C10 at pin 17, pulse length 50, over a live transport. -/
theorem trig_default_level_high_witness :
    (clientTrig ⟨16, fun _ => 16, 0⟩ ⟨true, ""⟩ 17 50).2.2 =
      encodeFrame 37 (toU32 17) (toU32 50) 0 ∧
    serverDispatch 37 (toU32 17) (toU32 50) 0 9 =
      ([Ev.setModeEv (toU32 17) 1, Ev.setEv (toU32 17), Ev.delayEv (toU32 50),
        Ev.clearEv (toU32 17)], 0) :=
  ⟨(trig_default_level_high ⟨16, fun _ => 16, 0⟩ ⟨true, ""⟩ 17 50
      (by decide) (by decide) (by decide) (by decide) rfl).1,
   (trig_default_level_high ⟨16, fun _ => 16, 0⟩ ⟨true, ""⟩ 17 50
      (by decide) (by decide) (by decide) (by decide) rfl).2.2 9⟩

/-- C8: for a TRIG command with a high level (the default or an
explicit nonzero extension), the iteration's trace is exactly
set-mode, set, hold, clear, and only then the response send — so at
the moment the response is emitted the pulse has fully executed and
the register state over the preceding events shows the pin low. -/
theorem trig_pulse_completes_before_response (p dur p3 ext : Nat)
    (hl : (if p3 = 4 then ext else 1) ≠ 0) (g : Gpio) :
    (serverStep 37 p dur p3 ext).1 =
      [Ev.setModeEv p 1, Ev.setEv p, Ev.delayEv dur, Ev.clearEv p,
        Ev.sendResp (encodeStatus 0)] ∧
    (applyTrace g [Ev.setModeEv p 1, Ev.setEv p, Ev.delayEv dur,
        Ev.clearEv p]).level p = false := by
  constructor
  · simp [serverStep, serverDispatch, gpio_trig, hl]
  · simp [applyTrace, applyEv, gpio_clear, gpio_set]

/-- Witness for C8: `TRIG(pin 17, 50 us)` without extension, from a
register state with every pin high. -/
theorem trig_pulse_completes_before_response_witness :
    (serverStep 37 17 50 0 0).1 =
      [Ev.setModeEv 17 1, Ev.setEv 17, Ev.delayEv 50, Ev.clearEv 17,
        Ev.sendResp (encodeStatus 0)] ∧
    (applyTrace ⟨fun _ => 0, fun _ => true⟩
        [Ev.setModeEv 17 1, Ev.setEv 17, Ev.delayEv 50, Ev.clearEv 17]).level 17 = false :=
  trig_pulse_completes_before_response 17 50 0 0 (by decide) ⟨fun _ => 0, fun _ => true⟩

theorem recvAux_succ (reads : Nat → Int) (fuel total attempts : Nat) :
    recvAux reads (fuel + 1) total attempts =
      if total < 16 then
        if 0 < reads attempts then
          recvAux reads fuel (total + (reads attempts).toNat) (attempts + 1)
        else if reads attempts < 0 then (RecvOutcome.transportError, attempts + 1)
        else recvAux reads fuel total (attempts + 1)
      else (RecvOutcome.success, attempts) := rfl

theorem recvAux_count_le (reads : Nat → Int) (fuel : Nat) :
    ∀ total attempts, (recvAux reads fuel total attempts).2 ≤ attempts + fuel := by
  induction fuel with
  | zero => intro total attempts; simp [recvAux]
  | succ n ih =>
    intro total attempts
    rw [recvAux_succ]
    split_ifs with h1 h2 h3
    · exact le_trans (ih _ _) (by omega)
    · simp only []; omega
    · exact le_trans (ih _ _) (by omega)
    · simp only []; omega

theorem recvAux_incomplete (reads : Nat → Int) (hnn : ∀ k, 0 ≤ reads k) (fuel : Nat) :
    ∀ total attempts,
      total + (Finset.range fuel).sum (fun i => (reads (attempts + i)).toNat) < 16 →
      recvAux reads fuel total attempts = (RecvOutcome.incomplete, attempts + fuel) := by
  induction fuel with
  | zero =>
    intro total attempts h
    simp only [Finset.range_zero, Finset.sum_empty, Nat.add_zero] at h
    simp [recvAux, h]
  | succ n ih =>
    intro total attempts h
    have hsum :
        (Finset.range (n + 1)).sum (fun i => (reads (attempts + i)).toNat) =
          (Finset.range n).sum (fun i => (reads (attempts + 1 + i)).toNat) +
            (reads attempts).toNat := by
      rw [Finset.sum_range_succ']
      congr 1
      exact Finset.sum_congr rfl fun i _ => by
        rw [show attempts + (i + 1) = attempts + 1 + i from by omega]
    rw [hsum] at h
    have htot : total < 16 := by omega
    rw [recvAux_succ, if_pos htot]
    have hr := hnn attempts
    split_ifs with h1 h2
    · rw [ih (total + (reads attempts).toNat) (attempts + 1) (by omega)]
      exact Prod.ext rfl (by omega)
    · omega
    · rw [ih total (attempts + 1) (by omega)]
      exact Prod.ext rfl (by omega)

/-- C7: the response read loop of `sendCommand` is bounded — it issues
at most 100 reads; if every read is non-negative and fewer than 16
bytes arrive across the whole budget, the loop ends after exactly 100
reads with the incomplete outcome and `sendCommand` reports
`PI_SOCKET_ERROR` with the incomplete-response message; and whenever
any read returns a negative value — at any attempt `m` the running
loop reaches (earlier reads non-negative, fewer than 16 bytes so far,
budget not exhausted) — the loop stops immediately after that read,
having issued exactly `m + 1` reads, with the transport outcome and
the socket-read-error message. -/
theorem recvAux_transport (reads : Nat → Int) :
    ∀ m fuel total attempts, m < fuel →
      (∀ k, k < m → 0 ≤ reads (attempts + k)) →
      total + (Finset.range m).sum (fun i => (reads (attempts + i)).toNat) < 16 →
      reads (attempts + m) < 0 →
      recvAux reads fuel total attempts = (RecvOutcome.transportError, attempts + m + 1) := by
  intro m
  induction m with
  | zero =>
    intro fuel total attempts hm hnn hsum hneg
    rcases fuel with _ | f
    · omega
    · simp only [Finset.range_zero, Finset.sum_empty, Nat.add_zero] at hsum hneg
      rw [recvAux_succ, if_pos (show total < 16 from by omega),
        if_neg (show ¬(0 < reads attempts) from by omega), if_pos hneg]
  | succ n ih =>
    intro fuel total attempts hm hnn hsum hneg
    rcases fuel with _ | f
    · omega
    · have hsplit :
          (Finset.range (n + 1)).sum (fun i => (reads (attempts + i)).toNat) =
            (Finset.range n).sum (fun i => (reads (attempts + 1 + i)).toNat) +
              (reads attempts).toNat := by
        rw [Finset.sum_range_succ']
        congr 1
        exact Finset.sum_congr rfl fun i _ => by
          rw [show attempts + (i + 1) = attempts + 1 + i from by omega]
      rw [hsplit] at hsum
      have hr0 : 0 ≤ reads attempts := by
        have h := hnn 0 (by omega)
        simpa using h
      have hnn1 : ∀ k, k < n → 0 ≤ reads (attempts + 1 + k) := fun k hk => by
        rw [show attempts + 1 + k = attempts + (k + 1) from by omega]
        exact hnn (k + 1) (by omega)
      have hneg1 : reads (attempts + 1 + n) < 0 := by
        rw [show attempts + 1 + n = attempts + (n + 1) from by omega]
        exact hneg
      rw [recvAux_succ, if_pos (show total < 16 from by omega)]
      by_cases hpos : 0 < reads attempts
      · rw [if_pos hpos,
          ih f (total + (reads attempts).toNat) (attempts + 1) (by omega) hnn1
            (by omega) hneg1]
        exact Prod.ext rfl (by omega)
      · rw [if_neg hpos, if_neg (show ¬(reads attempts < 0) from by omega),
          ih f total (attempts + 1) (by omega) hnn1 (by omega) hneg1]
        exact Prod.ext rfl (by omega)

theorem recv_loop_bounded (net : Net) (st : ClientState) (cmd p1 p2 p3 : Nat)
    (hc : st.connected = true) (hw : net.writeAccepts = 16) :
    (recvLoop net.reads).2 ≤ 100 ∧
    ((∀ k, 0 ≤ net.reads k) →
      (Finset.range 100).sum (fun i => (net.reads i).toNat) < 16 →
      recvLoop net.reads = (RecvOutcome.incomplete, 100) ∧
      (sendCommandM net st cmd p1 p2 p3).1 = PI_SOCKET_ERROR ∧
      (sendCommandM net st cmd p1 p2 p3).2.1.lastError =
        "Incomplete response from pigpiod") ∧
    (∀ m : Nat, m < 100 →
      (∀ k, k < m → 0 ≤ net.reads k) →
      (Finset.range m).sum (fun i => (net.reads i).toNat) < 16 →
      net.reads m < 0 →
      recvLoop net.reads = (RecvOutcome.transportError, m + 1) ∧
      (sendCommandM net st cmd p1 p2 p3).1 = PI_SOCKET_ERROR ∧
      (sendCommandM net st cmd p1 p2 p3).2.1.lastError = "Socket read error") := by
  refine ⟨?_, ?_, ?_⟩
  · exact le_trans (recvAux_count_le net.reads 100 0 0) (by omega)
  · intro hnn hsum
    have hloop : recvLoop net.reads = (RecvOutcome.incomplete, 100) := by
      have h0 :
          (0 : Nat) + (Finset.range 100).sum (fun i => (net.reads (0 + i)).toNat) < 16 := by
        simpa using hsum
      simpa [recvLoop] using recvAux_incomplete net.reads hnn 100 0 0 h0
    refine ⟨hloop, ?_, ?_⟩ <;>
      simp [sendCommandM, hc, hw, hloop]
  · intro m hm hnn hsum hneg
    have hloop : recvLoop net.reads = (RecvOutcome.transportError, m + 1) := by
      have h := recvAux_transport net.reads m 100 0 0 (by omega)
        (fun k hk => by simpa using hnn k hk)
        (by simpa using hsum)
        (by simpa using hneg)
      simpa [recvLoop] using h
    refine ⟨hloop, ?_, ?_⟩ <;>
      simp [sendCommandM, hc, hw, hloop]

/-- Witness for C7: a transport that always reports zero bytes ends in
the incomplete outcome after exactly 100 reads, and one that delivers
one byte on each of its first five reads and then fails ends in the
transport outcome immediately after the negative sixth read. -/
theorem recv_loop_bounded_witness :
    recvLoop (fun _ => (0 : Int)) = (RecvOutcome.incomplete, 100) ∧
    recvLoop (fun k => if k < 5 then (1 : Int) else -1) =
      (RecvOutcome.transportError, 6) :=
  ⟨((recv_loop_bounded ⟨16, fun _ => 0, 0⟩ ⟨true, ""⟩ 26 0 0 0 rfl rfl).2.1
      (fun _ => le_refl 0) (by simp)).1,
   ((recv_loop_bounded ⟨16, fun k => if k < 5 then (1 : Int) else -1, 0⟩ ⟨true, ""⟩
        26 0 0 0 rfl rfl).2.2
      5 (by decide)
      (fun k hk => by
        show 0 ≤ if k < 5 then (1 : Int) else -1
        rw [if_pos hk]
        decide)
      (by decide) (by decide)).1⟩

theorem testBit_setModeWord (v s j : Nat) (hj : j < 32) :
    (setModeWord v s 1).testBit j =
      if j = s then true
      else if j = s + 1 ∨ j = s + 2 then false
      else v.testBit j := by
  have t7 : ∀ k, Nat.testBit 7 k = decide (k < 3) := fun k => by
    have h := Nat.testBit_two_pow_sub_one 3 k
    norm_num at h
    exact h
  have t1 : ∀ k, Nat.testBit 1 k = decide (k = 0) := fun k => by
    have h := Nat.testBit_two_pow_sub_one 1 k
    norm_num at h
    exact h
  have tM : ∀ k, Nat.testBit 4294967295 k = decide (k < 32) := fun k => by
    have h := Nat.testBit_two_pow_sub_one 32 k
    norm_num at h
    exact h
  simp only [setModeWord]
  norm_num
  simp only [Nat.testBit_or, Nat.testBit_and, Nat.testBit_xor, Nat.testBit_shiftLeft,
    t7, t1, tM]
  rcases Nat.lt_trichotomy j s with hc | hc | hc
  · have h1 : ¬(j ≥ s) := by omega
    have h2 : j ≠ s := by omega
    have h3 : j ≠ s + 1 := by omega
    have h4 : j ≠ s + 2 := by omega
    simp [h1, h2, h3, h4, hj]
  · subst hc
    simp [hj]
  · by_cases h1 : j = s + 1
    · subst h1
      have hd : s + 1 - s = 1 := by omega
      have hge : s + 1 ≥ s := by omega
      simp [hj, hge, hd]
    · by_cases h2 : j = s + 2
      · subst h2
        have hd : s + 2 - s = 2 := by omega
        have hge : s + 2 ≥ s := by omega
        simp [hj, hge, hd]
      · have hns : j ≠ s := by omega
        have hge : j ≥ s := by omega
        have hd3 : ¬(j - s < 3) := by omega
        have hd1 : ¬(j - s = 0) := by omega
        simp [hj, hge, hns, h1, h2, hd3, hd1]

/-- C9: `gpio_set_mode(pin, OUTPUT)` modifies only the 3 function-select
bits owned by `pin` — word `pin / 10`, bits `(pin % 10) * 3` through
`(pin % 10) * 3 + 2`, set to binary 001 — and every other bit of every
function-select word is bit-for-bit unchanged. -/
theorem set_mode_touches_only_own_field (pin : Nat) (_hpin : pin ≤ 53)
    (fsel : Nat → Nat) (w j : Nat) (hj : j < 32) :
    ((w ≠ pin / 10 ∨ j < pin % 10 * 3 ∨ pin % 10 * 3 + 3 ≤ j) →
      (gpio_set_mode pin 1 fsel w).testBit j = (fsel w).testBit j) ∧
    (gpio_set_mode pin 1 fsel (pin / 10)).testBit (pin % 10 * 3) = true ∧
    (gpio_set_mode pin 1 fsel (pin / 10)).testBit (pin % 10 * 3 + 1) = false ∧
    (gpio_set_mode pin 1 fsel (pin / 10)).testBit (pin % 10 * 3 + 2) = false := by
  refine ⟨?_, ?_, ?_, ?_⟩
  · intro hcase
    unfold gpio_set_mode
    by_cases hw : w = pin / 10
    · rw [if_pos hw, testBit_setModeWord _ _ _ hj]
      have h1 : ¬(j = pin % 10 * 3) := by omega
      have h2 : ¬(j = pin % 10 * 3 + 1 ∨ j = pin % 10 * 3 + 2) := by omega
      rw [if_neg h1, if_neg h2]
    · rw [if_neg hw]
  · unfold gpio_set_mode
    rw [if_pos rfl, testBit_setModeWord _ _ _ (by omega)]
    simp
  · unfold gpio_set_mode
    rw [if_pos rfl, testBit_setModeWord _ _ _ (by omega)]
    simp
  · unfold gpio_set_mode
    rw [if_pos rfl, testBit_setModeWord _ _ _ (by omega)]
    simp

/-- Witness for C9 at pin 17 over an all-ones register file: bit 20
(the top bit of pin 16's field) is untouched while pin 17's own field
becomes binary 001 at bits 21–23. -/
theorem set_mode_touches_only_own_field_witness :
    (gpio_set_mode 17 1 (fun _ => 4294967295) 1).testBit 20 =
      Nat.testBit 4294967295 20 ∧
    (gpio_set_mode 17 1 (fun _ => 4294967295) (17 / 10)).testBit (17 % 10 * 3) = true ∧
    (gpio_set_mode 17 1 (fun _ => 4294967295) (17 / 10)).testBit (17 % 10 * 3 + 1) = false ∧
    (gpio_set_mode 17 1 (fun _ => 4294967295) (17 / 10)).testBit (17 % 10 * 3 + 2) = false :=
  ⟨(set_mode_touches_only_own_field 17 (by decide) (fun _ => 4294967295) 1 20
      (by decide)).1 (by decide),
   (set_mode_touches_only_own_field 17 (by decide) (fun _ => 4294967295) 1 20
      (by decide)).2.1,
   (set_mode_touches_only_own_field 17 (by decide) (fun _ => 4294967295) 1 20
      (by decide)).2.2.1,
   (set_mode_touches_only_own_field 17 (by decide) (fun _ => 4294967295) 1 20
      (by decide)).2.2.2⟩

/-- C1 (code evaluated at the failing input): with the TCP connect
succeeding and the server answering the version probe with the
non-positive status 0, `connect` returns `false` and tears the
connection down — but `getLastError()` afterwards yields the empty
string, not the handshake message, because `disconnect()` resets
`lastError` after `connect` assigned it. -/
theorem connect_handshake_failure_empties_lastError :
    (clientConnect ⟨16, fun _ => 16, 0⟩ true "raspberrypi" 8888).1 = false ∧
    (clientConnect ⟨16, fun _ => 16, 0⟩ true "raspberrypi" 8888).2.connected = false ∧
    (clientConnect ⟨16, fun _ => 16, 0⟩ true "raspberrypi" 8888).2.lastError = "" :=
  ⟨rfl, rfl, rfl⟩
